import Mathlib

/-!
Shallow embedding of the VRP genetic solver of this repository (the web-worker
module in `src/unnamed/part_000`, record types from `src/src/types.d.ts`).

JavaScript numbers are modelled by an arbitrary linear ordered field with a
floor function; the concrete solver built by the class constructor
instantiates it with the real numbers together with the haversine
great-circle distance, exactly as `getDistanceBetweenCoords` wires it.

The stochastic primitives taken from the `radash` library are modelled as
follows: `shuffle` relationally as an arbitrary permutation of its argument,
`draw` as indexing at an arbitrary position modulo the length, `sort` with a
numeric comparator relationally as an arbitrary reordering that is sorted by
the key, `max` as the left fold of the binary maximum (returning null, i.e.
`none`, on an empty list), and `range` including its quirk that a falsy `end`
argument (`0`) makes it yield the single value `0`.
-/

set_option linter.unusedSectionVars false

namespace VRP

/-- Coordinate record from `types.d.ts`: longitude and latitude in degrees. -/
structure Coord (α : Type) where
  longitude : α
  latitude : α
  deriving DecidableEq

/-- Degrees to radians (source function `toRadians`). -/
noncomputable def toRadians (degrees : ℝ) : ℝ := degrees * Real.pi / 180

/-- JavaScript `Math.atan2 y x` for finite arguments (signed zeros are not
modelled; both arguments the solver passes are non-negative square roots). -/
noncomputable def jsAtan2 (y x : ℝ) : ℝ :=
  if 0 < x then Real.arctan (y / x)
  else if x < 0 then
    (if 0 ≤ y then Real.arctan (y / x) + Real.pi else Real.arctan (y / x) - Real.pi)
  else if 0 < y then Real.pi / 2
  else if y < 0 then -(Real.pi / 2)
  else 0

/-- The local `a` of `haversineDistance` (source lines 20-22): the haversine
of the central angle, written with the same repeated sine products as the
source. -/
noncomputable def havA (coord1 coord2 : Coord ℝ) : ℝ :=
  Real.sin (toRadians (coord2.latitude - coord1.latitude) / 2) *
    Real.sin (toRadians (coord2.latitude - coord1.latitude) / 2) +
  Real.cos (toRadians coord1.latitude) * Real.cos (toRadians coord2.latitude) *
    Real.sin (toRadians (coord2.longitude - coord1.longitude) / 2) *
    Real.sin (toRadians (coord2.longitude - coord1.longitude) / 2)

/-- Haversine great-circle distance with Earth radius 6371 km (source function
`haversineDistance`): `R * c` with `c = 2 * atan2 (sqrt a) (sqrt (1 - a))`. -/
noncomputable def haversineDistance (coord1 coord2 : Coord ℝ) : ℝ :=
  6371 * (2 * jsAtan2 (Real.sqrt (havA coord1 coord2)) (Real.sqrt (1 - havA coord1 coord2)))

/-- State of the `VRPSolver` class.  `weightTime`/`weightDistance` default to
`1`, `driverNum` is the fixed private field `10`, `individualNum = 100`,
`selectedNum = 50`, `iterNum = 200`; the constructor stores the stop list and
sets `coords = [warehouse, ...stops]`.  The method
`getDistanceBetweenCoords`, which always returns `haversineDistance`, is the
field `dist`, so that the genetic layer is stated over any numeric field;
`mkSolver` below instantiates it exactly as the source constructor does. -/
structure VRPSolver (α : Type) where
  weightTime : α
  weightDistance : α
  driverNum : ℕ
  warehouse : Coord α
  stops : List (Coord α)
  coords : List (Coord α)
  individualNum : ℕ
  selectedNum : ℕ
  iterNum : ℕ
  dist : Coord α → Coord α → α

variable {α : Type} [LinearOrderedField α] [FloorRing α]

/-- Driving speed constant `DRIVE_SPEED = 50` (km/h). -/
def DRIVE_SPEED : α := 50

/-- Truncation toward zero, the rounding JavaScript's `%` operator applies to
the quotient. -/
def jsTrunc (x : α) : ℤ := if 0 ≤ x then ⌊x⌋ else ⌈x⌉

/-- JavaScript remainder `x % y` on finite numbers:
`x - y * trunc (x / y)`. -/
def jsMod (x y : α) : α := x - y * (jsTrunc (x / y) : α)

/-- Source method `VRPSolver.getRouteTime`: driving time is `distance / 50`,
every full 8-hour block is charged as 24 elapsed hours, the remainder
(`driverTime % 8`) is charged 1:1. -/
def getRouteTime (distance : α) : α :=
  let driverTime := distance / DRIVE_SPEED
  let fullDay : ℤ := ⌊driverTime / 8⌋
  let lasyTime := jsMod driverTime 8
  (fullDay : α) * 24 + lasyTime

/-- radash `range(1, n)` as used in `initPopulation`: yields `1..n`
inclusive; when `n = 0` the `end` argument is falsy, so `range` starts and
ends at `0` and yields the single value `0`. -/
def jsRange1 (n : ℕ) : List ℕ := if n = 0 then [0] else List.range' 1 n

/-- radash `range(1, driverNum - 1, 0)` as used in `initPopulation`:
`driverNum - 1` zero markers; when `driverNum = 1` the falsy `end` makes it
yield one `0`, and when `driverNum = 0` the loop from `1` to `-1` yields
nothing. -/
def jsZeroMarkers (driverNum : ℕ) : List ℕ :=
  if driverNum = 0 then []
  else if driverNum = 1 then [0]
  else List.replicate (driverNum - 1) 0

/-- The multiset underlying every individual pushed by `initPopulation`:
`[...range(1, stops.length), ...range(1, driverNum - 1, 0)]`; each individual
of the initial population is a `shuffle` (an arbitrary permutation) of it. -/
def initChromosome (s : VRPSolver α) : List ℕ :=
  jsRange1 s.stops.length ++ jsZeroMarkers s.driverNum

/-- JavaScript `Array.prototype.slice start stop` for `0 ≤ start` (the only
case `getFitness` exercises: `start = warehouseIdx + 1 ≥ 0`). -/
def jsSlice (l : List ℕ) (start : ℤ) (stop : ℕ) : List ℕ :=
  (l.take stop).drop start.toNat

/-- One iteration of the scanning loop of `VRPSolver.getFitness` (source
lines 60-68).  The state is the routes collected so far and `warehouseIdx`
(an integer, initially `-1`).  `individual[i] === 0` is `get? i = some 0`:
an index beyond the length reads `undefined` in JavaScript, which is not
`0`. -/
def decodeStep (individual : List ℕ) (st : List (List ℕ) × ℤ) (i : ℕ) :
    List (List ℕ) × ℤ :=
  if individual.get? i = some 0 then
    (if 0 < (jsSlice individual (st.2 + 1) i).length
      then st.1 ++ [jsSlice individual (st.2 + 1) i] else st.1, (i : ℤ))
  else st

/-- Route decoding as implemented inside `VRPSolver.getFitness`: the scanning
loop over `i = 0 .. individualNum - 1` followed by the trailing-run check
`warehouseIdx !== individualNum - 1`.  NOTE: the loop bound is
`this.individualNum` — the population size — exactly as in the source, not
the length of the individual. -/
def decode (individualNum : ℕ) (individual : List ℕ) : List (List ℕ) :=
  let st := (List.range individualNum).foldl (decodeStep individual) ([], -1)
  if st.2 ≠ (individualNum : ℤ) - 1 then
    (if 0 < (individual.drop (st.2 + 1).toNat).length
      then st.1 ++ [individual.drop (st.2 + 1).toNat] else st.1)
  else st.1

/-- `this.coords[idx]`; an out-of-range access yields `undefined` in
JavaScript, modelled with a default coordinate (never reached on decoded
routes, whose entries index the coordinate table). -/
def coordAt (s : VRPSolver α) (idx : ℕ) : Coord α := s.coords.getD idx ⟨0, 0⟩

/-- Sum of `d` over consecutive pairs of a list of indices: the accumulation
loop of `VRPSolver.getRouteDistance`. -/
def legSum (d : ℕ → ℕ → α) : List ℕ → α
  | a :: b :: rest => d a b + legSum d (b :: rest)
  | _ => 0

/-- Source method `VRPSolver.getRouteDistance`: prepend and append the depot
index `0` and sum `getDistanceBetweenCoords` over consecutive pairs. -/
def getRouteDistance (s : VRPSolver α) (route : List ℕ) : α :=
  legSum (fun i j => s.dist (coordAt s i) (coordAt s j)) (0 :: route ++ [0])

/-- radash `max`: `boil` of the binary maximum, `null` (`none`) on an empty
list. -/
def jsMax : List α → Option α
  | [] => none
  | x :: xs => some (xs.foldl max x)

/-- The record returned by `VRPSolver.getFitness`. `totalTime` is
`max(...)`, which is `null` when no route was decoded, hence an `Option`. -/
structure FitnessResult (α : Type) where
  fitness : α
  routes : List (List ℕ)
  totalDistance : α
  totalTime : Option α

/-- Source method `VRPSolver.getFitness` (after the decoding scan):
`distances` maps `getRouteDistance` over the routes, `totalDistance` is their
`reduce`-sum, `totalTime` is `max(routes.map((_, idx) =>
getRouteTime(distances[idx])))`, and the fitness is the negated weighted
average cost.  In the cost expression JavaScript coerces a `null`
`totalTime` to `0`, which `Option.getD 0` models. -/
def getFitness (s : VRPSolver α) (individual : List ℕ) : FitnessResult α :=
  let routes := decode s.individualNum individual
  let distances := routes.map (getRouteDistance s)
  let totalDistance := distances.foldl (· + ·) 0
  let totalTime := jsMax (routes.mapIdx fun idx _ => getRouteTime (distances.getD idx 0))
  let cost := (s.weightTime * totalTime.getD 0 + s.weightDistance * totalDistance) /
    (s.weightTime + s.weightDistance)
  { fitness := -cost, routes := routes, totalDistance := totalDistance,
    totalTime := totalTime }

/-- Comparator ordering used by radash `sort(population, i => fitness i,
true)` in `select` and `solve`: `a` before `b` when the fitness of `b` is at
most the fitness of `a` (descending). -/
def fitLE (s : VRPSolver α) (a b : List ℕ) : Prop :=
  (getFitness s b).fitness ≤ (getFitness s a).fitness

instance fitLEDecidable (s : VRPSolver α) : DecidableRel (fitLE s) := fun a b =>
  inferInstanceAs (Decidable ((getFitness s b).fitness ≤ (getFitness s a).fitness))

/-- Relational model of radash `sort(P, i => fitness i, true)`: `Q` is a
reordering of `P` that is sorted descending by fitness. -/
def RankedDesc (s : VRPSolver α) (P Q : List (List ℕ)) : Prop :=
  P.Perm Q ∧ Q.Sorted (fitLE s)

/-- One `reproduce` step: `select` keeps the first `selectedNum` of a ranked
reordering, `mutation` produces `individualNum - selectedNum` individuals,
each a `shuffle` (arbitrary permutation) of an individual drawn from the
current population, and the new population is their concatenation. -/
def StepRel (s : VRPSolver α) (P next : List (List ℕ)) : Prop :=
  ∃ Q M, RankedDesc s P Q ∧
    M.length = s.individualNum - s.selectedNum ∧
    (∀ m ∈ M, ∃ src ∈ P, src.Perm m) ∧
    next = Q.take s.selectedNum ++ M

/-- `n` consecutive `reproduce` steps. -/
def StepIter (s : VRPSolver α) : ℕ → List (List ℕ) → List (List ℕ) → Prop
  | 0, P, P' => P' = P
  | n + 1, P, P'' => ∃ P', StepIter s n P P' ∧ StepRel s P' P''

/-- Relational model of `initPopulation`: exactly `individualNum` individuals
were pushed, each a `shuffle` of the base chromosome. -/
def InitPop (s : VRPSolver α) (P : List (List ℕ)) : Prop :=
  P.length = s.individualNum ∧ ∀ ind ∈ P, (initChromosome s).Perm ind

/-- The best fitness value present in a population (radash `max` over the
fitness of every member). -/
def bestFitness (s : VRPSolver α) (P : List (List ℕ)) : Option α :=
  jsMax (P.map fun ind => (getFitness s ind).fitness)

/-- radash `draw`: a random element, `null` on an empty list.  The random
index is modelled by an arbitrary `k` reduced modulo the length (on the empty
list `get?` yields `none` directly). -/
def jsDraw {β : Type} (l : List β) (k : ℕ) : Option β := l.get? (k % l.length)

/-- Per-route output record `VRPRoute` from `types.d.ts`. -/
structure VRPRoute (α : Type) where
  paths : List (Coord α)
  indices : List ℕ
  time : α
  driveTime : α
  distance : α
  googleMapUrl : String

/-- Overall output record `VRPSolve` from `types.d.ts`; `totalTime` is
forwarded from `getFitness`, hence an `Option` (the declared TypeScript type
is `number`, but at runtime it is `null` when no route exists). -/
structure VRPSolve (α : Type) where
  routes : List (VRPRoute α)
  totalDistance : α
  totalTime : Option α

/-- The per-route record built inside `VRPSolver.solve` (source lines
167-185).  `numStr` abstracts JavaScript number-to-string conversion used by
the template literal (floating-point formatting is not modelled). -/
def buildRoute (s : VRPSolver α) (numStr : α → String) (route : List ℕ) :
    VRPRoute α :=
  let distance := getRouteDistance s route
  let driveTime := distance / DRIVE_SPEED
  let time := getRouteTime distance
  let indices := 0 :: route ++ [0]
  let paths := indices.map (coordAt s)
  let coordStrs := paths.map fun path => numStr path.latitude ++ "," ++ numStr path.longitude
  { paths := paths, indices := indices, time := time, driveTime := driveTime,
    distance := distance,
    googleMapUrl := "https://www.google.com/maps/dir/" ++ String.intercalate "/" coordStrs }

/-- The result assembly of `VRPSolver.solve` applied to the best-ranked
individual `results[0]` of the final population. -/
def solveOutput (s : VRPSolver α) (numStr : α → String) (best : List ℕ) :
    VRPSolve α :=
  let F := getFitness s best
  { routes := F.routes.map (buildRoute s numStr),
    totalDistance := F.totalDistance,
    totalTime := F.totalTime }

/-- The constructor `new VRPSolver(warehouse, stops)` with the class field
defaults of the source, distances computed by `getDistanceBetweenCoords`,
i.e. `haversineDistance`. -/
noncomputable def mkSolver (warehouse : Coord ℝ) (stops : List (Coord ℝ)) :
    VRPSolver ℝ :=
  { weightTime := 1, weightDistance := 1, driverNum := 10,
    warehouse := warehouse, stops := stops, coords := warehouse :: stops,
    individualNum := 100, selectedNum := 50, iterNum := 200,
    dist := haversineDistance }

/-- A small rational-valued solver configuration used to instantiate proved
theorems at concrete inputs (all stops coincide, so every leg has distance
zero). -/
def qSolver : VRPSolver ℚ :=
  { weightTime := 1, weightDistance := 1, driverNum := 2,
    warehouse := ⟨0, 0⟩, stops := [⟨0, 0⟩], coords := [⟨0, 0⟩, ⟨0, 0⟩],
    individualNum := 2, selectedNum := 1, iterNum := 3,
    dist := fun _ _ => 0 }

/-- A solver with 92 stops and the default configuration, on which the
decoding loop bound `individualNum = 100` is smaller than the individual
length `92 + 10 - 1 = 101`. -/
def s92 : VRPSolver ℚ :=
  { weightTime := 1, weightDistance := 1, driverNum := 10,
    warehouse := ⟨0, 0⟩, stops := List.replicate 92 ⟨0, 0⟩,
    coords := ⟨0, 0⟩ :: List.replicate 92 ⟨0, 0⟩,
    individualNum := 100, selectedNum := 50, iterNum := 200,
    dist := fun _ _ => 0 }

/-- A valid individual for `s92`: stops `1..91`, then the nine zero markers
(the last one at position 99), then stop `92` at position 100. -/
def badIndividual : List ℕ := List.range' 1 91 ++ List.replicate 9 0 ++ [92]

/-! ### Helper lemmas -/

lemma foldl_add_eq_sum (l : List α) : ∀ a : α, l.foldl (· + ·) a = a + l.sum := by
  induction l with
  | nil => intro a; simp
  | cons x t ih =>
      intro a
      rw [List.foldl_cons, ih (a + x), List.sum_cons, add_assoc]

lemma foldl_max_mem (xs : List α) : ∀ x : α, xs.foldl max x ∈ x :: xs := by
  induction xs with
  | nil => intro x; simp
  | cons y ys ih =>
      intro x
      rw [List.foldl_cons]
      rcases List.mem_cons.mp (ih (max x y)) with h | h
      · rcases max_choice x y with h1 | h1
        · rw [h, h1]; exact List.mem_cons_self _ _
        · rw [h, h1]; exact List.mem_cons_of_mem _ (List.mem_cons_self _ _)
      · exact List.mem_cons_of_mem _ (List.mem_cons_of_mem _ h)

lemma le_foldl_max (xs : List α) : ∀ x z : α, z ∈ x :: xs → z ≤ xs.foldl max x := by
  induction xs with
  | nil =>
      intro x z hz
      simp only [List.mem_singleton] at hz
      simp [hz]
  | cons y ys ih =>
      intro x z hz
      rw [List.foldl_cons]
      have hbase : max x y ≤ ys.foldl max (max x y) :=
        ih (max x y) (max x y) (List.mem_cons_self _ _)
      rcases List.mem_cons.mp hz with h | h
      · exact le_trans (h.le.trans (le_max_left x y)) hbase
      · rcases List.mem_cons.mp h with h2 | h2
        · exact le_trans (h2.le.trans (le_max_right x y)) hbase
        · exact ih (max x y) z (List.mem_cons_of_mem _ h2)

lemma jsMax_mem {l : List α} {m : α} (h : jsMax l = some m) : m ∈ l := by
  cases l with
  | nil => simp [jsMax] at h
  | cons x xs =>
      simp only [jsMax, Option.some.injEq] at h
      exact h ▸ foldl_max_mem xs x

lemma le_jsMax {l : List α} {m : α} (h : jsMax l = some m) : ∀ z ∈ l, z ≤ m := by
  cases l with
  | nil => simp [jsMax] at h
  | cons x xs =>
      simp only [jsMax, Option.some.injEq] at h
      intro z hz
      exact h ▸ le_foldl_max xs x z hz

lemma jsMax_isSome {l : List α} (h : l ≠ []) : ∃ m, jsMax l = some m := by
  cases l with
  | nil => exact absurd rfl h
  | cons x xs => exact ⟨xs.foldl max x, rfl⟩

lemma mapIdx_getD_map {β γ δ : Type} (f : β → γ) (g : γ → δ) (d0 : γ) :
    ∀ (l : List β) (ds : List γ), ds = l.map f →
      (l.mapIdx fun i _ => g (ds.getD i d0)) = l.map fun b => g (f b) := by
  intro l
  induction l with
  | nil => intro ds _; simp
  | cons a t ih =>
      intro ds hds
      subst hds
      rw [List.map_cons, List.mapIdx_cons]
      refine congrArg₂ (· :: ·) (by simp) ?_
      simpa only [List.getD_cons_succ] using ih (t.map f) rfl

lemma routeTimes_eq (s : VRPSolver α) (routes : List (List ℕ)) :
    (routes.mapIdx fun idx _ =>
      getRouteTime ((routes.map (getRouteDistance s)).getD idx 0)) =
    routes.map fun r => getRouteTime (getRouteDistance s r) :=
  mapIdx_getD_map (getRouteDistance s) getRouteTime 0 routes _ rfl

lemma getFitness_routes (s : VRPSolver α) (ind : List ℕ) :
    (getFitness s ind).routes = decode s.individualNum ind := rfl

lemma getFitness_totalDistance (s : VRPSolver α) (ind : List ℕ) :
    (getFitness s ind).totalDistance =
      ((decode s.individualNum ind).map (getRouteDistance s)).sum := by
  show ((decode s.individualNum ind).map (getRouteDistance s)).foldl (· + ·) 0 = _
  rw [foldl_add_eq_sum, zero_add]

lemma getFitness_totalTime (s : VRPSolver α) (ind : List ℕ) :
    (getFitness s ind).totalTime =
      jsMax ((decode s.individualNum ind).map
        fun r => getRouteTime (getRouteDistance s r)) := by
  show jsMax _ = _
  rw [routeTimes_eq]

lemma getFitness_fitness (s : VRPSolver α) (ind : List ℕ) :
    (getFitness s ind).fitness =
      -((s.weightTime * ((getFitness s ind).totalTime).getD 0 +
          s.weightDistance * (getFitness s ind).totalDistance) /
        (s.weightTime + s.weightDistance)) := rfl

lemma stepRel_length {s : VRPSolver α} {P P' : List (List ℕ)}
    (h : StepRel s P P') (hlen : P.length = s.individualNum)
    (hsel : s.selectedNum ≤ s.individualNum) : P'.length = s.individualNum := by
  obtain ⟨Q, M, hrank, hMlen, _, hP'⟩ := h
  have hQ : Q.length = s.individualNum := by rw [← hrank.1.length_eq, hlen]
  subst hP'
  rw [List.length_append, List.length_take, hQ, hMlen, min_eq_left hsel,
    Nat.add_sub_cancel' hsel]

lemma stepIter_length {s : VRPSolver α} {P₀ P : List (List ℕ)} {n : ℕ}
    (hinit : P₀.length = s.individualNum) (hiter : StepIter s n P₀ P)
    (hsel : s.selectedNum ≤ s.individualNum) : P.length = s.individualNum := by
  induction n generalizing P with
  | zero => rw [show P = P₀ from hiter, hinit]
  | succ n ih =>
      obtain ⟨P', h1, h2⟩ := hiter
      exact stepRel_length h2 (ih h1) hsel

lemma ranked_head_max {s : VRPSolver α} {P Q : List (List ℕ)} {b : List ℕ}
    (hrank : RankedDesc s P Q) (hhead : Q.head? = some b) :
    ∀ x ∈ P, (getFitness s x).fitness ≤ (getFitness s b).fitness := by
  obtain ⟨hperm, hsort⟩ := hrank
  cases Q with
  | nil => simp at hhead
  | cons q qt =>
      have hq : q = b := by simpa using hhead
      subst hq
      intro x hx
      rcases List.mem_cons.mp (hperm.mem_iff.mp hx) with h | h
      · subst h; exact le_refl _
      · exact (List.sorted_cons.mp hsort).1 x h

lemma legSum_cons₂ (d : ℕ → ℕ → α) (a b : ℕ) (rest : List ℕ) :
    legSum d (a :: b :: rest) = d a b + legSum d (b :: rest) := rfl

lemma legSum_append_pair (d : ℕ → ℕ → α) (a b : ℕ) :
    ∀ l : List ℕ, legSum d (l ++ [a, b]) = legSum d (l ++ [a]) + d a b := by
  intro l
  induction l with
  | nil =>
      rw [List.nil_append, List.nil_append, legSum_cons₂]
      show d a b + 0 = 0 + d a b
      ring
  | cons x t ih =>
      cases t with
      | nil =>
          simp only [List.cons_append, List.nil_append, legSum_cons₂]
          show d x a + (d a b + 0) = d x a + 0 + d a b
          ring
      | cons y r =>
          simp only [List.cons_append] at ih ⊢
          rw [legSum_cons₂, legSum_cons₂, ih, add_assoc]

lemma legSum_reverse (d : ℕ → ℕ → α) (hd : ∀ i j, d i j = d j i) :
    ∀ l : List ℕ, legSum d l.reverse = legSum d l := by
  intro l
  induction l with
  | nil => rfl
  | cons a t ih =>
      cases t with
      | nil => rfl
      | cons b r =>
          have h1 : (a :: b :: r).reverse = r.reverse ++ [b, a] := by
            simp
          rw [h1]
          have h2 : legSum d (r.reverse ++ [b, a]) =
              legSum d (r.reverse ++ [b]) + d b a := legSum_append_pair d b a r.reverse
          have h3 : r.reverse ++ [b] = (b :: r).reverse := by simp
          rw [h2, h3, ih, hd b a, legSum_cons₂]
          ring

lemma toRadians_sub_neg (u v : ℝ) : toRadians (u - v) / 2 = -(toRadians (v - u) / 2) := by
  unfold toRadians; ring

lemma sin_half_delta_neg (u v : ℝ) :
    Real.sin (toRadians (u - v) / 2) = -Real.sin (toRadians (v - u) / 2) := by
  rw [toRadians_sub_neg, Real.sin_neg]

lemma toRadians_zero : toRadians 0 = 0 := by
  unfold toRadians; ring

lemma havA_comm (a b : Coord ℝ) : havA a b = havA b a := by
  unfold havA
  rw [sin_half_delta_neg b.latitude a.latitude,
    sin_half_delta_neg b.longitude a.longitude]
  ring

lemma havA_self (a : Coord ℝ) : havA a a = 0 := by
  unfold havA
  rw [sub_self, sub_self, toRadians_zero, zero_div, Real.sin_zero]
  ring

lemma haversineDistance_comm (a b : Coord ℝ) :
    haversineDistance a b = haversineDistance b a := by
  unfold haversineDistance
  rw [havA_comm]

lemma haversineDistance_self (a : Coord ℝ) : haversineDistance a a = 0 := by
  unfold haversineDistance
  rw [havA_self, Real.sqrt_zero, sub_zero, Real.sqrt_one]
  unfold jsAtan2
  rw [if_pos one_pos]
  norm_num [Real.arctan_zero]

lemma getRouteDistance_reverse (s : VRPSolver α)
    (hd : ∀ a b : Coord α, s.dist a b = s.dist b a) (route : List ℕ) :
    getRouteDistance s route.reverse = getRouteDistance s route := by
  unfold getRouteDistance
  have hfull : ((0 : ℕ) :: route.reverse ++ [0]) = ((0 : ℕ) :: route ++ [0]).reverse := by
    simp
  rw [hfull, legSum_reverse _ fun i j => hd (coordAt s i) (coordAt s j)]

/-! ### Concrete populations used to instantiate the theorems -/

lemma qInit : InitPop qSolver [[1, 0], [1, 0]] := by
  refine ⟨rfl, ?_⟩
  decide

lemma qSortedPair : List.Sorted (fitLE qSolver) [[1, 0], [1, 0]] := by
  refine List.sorted_cons.mpr ⟨?_, List.sorted_singleton _⟩
  intro b hb
  rw [List.mem_singleton.mp hb]
  exact le_refl _

lemma qStep : StepRel qSolver [[1, 0], [1, 0]] [[1, 0], [1, 0]] := by
  refine ⟨[[1, 0], [1, 0]], [[1, 0]], ⟨List.Perm.refl _, qSortedPair⟩, rfl, ?_, rfl⟩
  intro m hm
  refine ⟨[1, 0], List.mem_cons_self _ _, ?_⟩
  rw [List.mem_singleton.mp hm]

lemma qBest : bestFitness qSolver [[1, 0], [1, 0]] =
    some ((getFitness qSolver [1, 0]).fitness) := by
  simp [bestFitness, jsMax, max_self]

lemma qRankSingle : RankedDesc qSolver [[1, 0]] [[1, 0]] :=
  ⟨List.Perm.refl _, List.sorted_singleton _⟩

/-! ### The claims -/

/-- C1: the claim says decoding splits the permutation on every zero marker
and the decoded routes cover the stop set 1..N exactly.  The code's scanning
loop in `getFitness` is bounded by `this.individualNum` (the population size,
100) instead of the individual's length: `badIndividual` is a valid
individual for 92 stops and 10 drivers (a permutation of the initial
chromosome, length 101 = 92 + 10 - 1), its last zero marker sits at index 99
= individualNum - 1, so the trailing-run check fires and stop 92 at index 100
is dropped from every decoded route, violating the coverage invariant. -/
theorem C1_coverage_violation :
    (initChromosome s92).Perm badIndividual ∧
    badIndividual.length = 92 + s92.driverNum - 1 ∧
    decode s92.individualNum badIndividual = [List.range' 1 91] ∧
    92 ∈ badIndividual ∧
    92 ∉ (decode s92.individualNum badIndividual).flatten := by
  refine ⟨by decide, by decide, by decide, by decide, by decide⟩

/-- C2: `getFitness` computes `totalDistance` as the sum of the decoded
routes' distances, `totalTime` as the maximum over the decoded routes of
`getRouteTime` of that route's distance, and the fitness as the negated
weighted average `(weightTime*totalTime + weightDistance*totalDistance) /
(weightTime + weightDistance)`, so higher fitness is lower cost. -/
theorem C2_fitness_formula (s : VRPSolver α) (individual : List ℕ)
    (h : decode s.individualNum individual ≠ []) :
    (getFitness s individual).routes = decode s.individualNum individual ∧
    (getFitness s individual).totalDistance =
      ((decode s.individualNum individual).map (getRouteDistance s)).sum ∧
    ∃ t, (getFitness s individual).totalTime = some t ∧
      t ∈ (decode s.individualNum individual).map
        (fun r => getRouteTime (getRouteDistance s r)) ∧
      (∀ u ∈ (decode s.individualNum individual).map
        (fun r => getRouteTime (getRouteDistance s r)), u ≤ t) ∧
      (getFitness s individual).fitness =
        -((s.weightTime * t +
            s.weightDistance * (getFitness s individual).totalDistance) /
          (s.weightTime + s.weightDistance)) := by
  refine ⟨getFitness_routes s individual, getFitness_totalDistance s individual, ?_⟩
  have hne : (decode s.individualNum individual).map
      (fun r => getRouteTime (getRouteDistance s r)) ≠ [] := by
    intro hc
    exact h (List.map_eq_nil_iff.mp hc)
  obtain ⟨t, ht⟩ := jsMax_isSome hne
  have htt : (getFitness s individual).totalTime = some t := by
    rw [getFitness_totalTime]; exact ht
  refine ⟨t, htt, jsMax_mem ht, le_jsMax ht, ?_⟩
  rw [getFitness_fitness, htt]
  rfl

/-- Witness for C2: the rational solver and the individual `[1]`, which
decodes to the single route `[1]`. -/
theorem C2_fitness_formula_witness :
    (getFitness qSolver [1]).routes = decode qSolver.individualNum [1] ∧
    (getFitness qSolver [1]).totalDistance =
      ((decode qSolver.individualNum [1]).map (getRouteDistance qSolver)).sum ∧
    ∃ t, (getFitness qSolver [1]).totalTime = some t ∧
      t ∈ (decode qSolver.individualNum [1]).map
        (fun r => getRouteTime (getRouteDistance qSolver r)) ∧
      (∀ u ∈ (decode qSolver.individualNum [1]).map
        (fun r => getRouteTime (getRouteDistance qSolver r)), u ≤ t) ∧
      (getFitness qSolver [1]).fitness =
        -((qSolver.weightTime * t +
            qSolver.weightDistance * (getFitness qSolver [1]).totalDistance) /
          (qSolver.weightTime + qSolver.weightDistance)) :=
  C2_fitness_formula qSolver [1] (by decide)

/-- C3: `getRouteTime` with the fixed drive speed 50 km/h satisfies
`routeTime d = 24*floor((d/50)/8) + ((d/50) mod 8)` for `d ≥ 0`, and at
exactly 400 km it yields 24 hours, not 0 and not 32. -/
theorem C3_routeTime_formula (d : α) (h : 0 ≤ d) :
    getRouteTime d =
      24 * (⌊d / 50 / 8⌋ : α) + (d / 50 - 8 * (⌊d / 50 / 8⌋ : α)) ∧
    (DRIVE_SPEED : α) = 50 ∧
    getRouteTime (400 : α) = 24 ∧
    getRouteTime (400 : α) ≠ 0 ∧ getRouteTime (400 : α) ≠ 32 := by
  have hmain : ∀ x : α, 0 ≤ x → getRouteTime x =
      24 * (⌊x / 50 / 8⌋ : α) + (x / 50 - 8 * (⌊x / 50 / 8⌋ : α)) := by
    intro x hx
    have hq : (0 : α) ≤ x / 50 / 8 :=
      div_nonneg (div_nonneg hx (by norm_num)) (by norm_num)
    simp only [getRouteTime, jsMod, jsTrunc, DRIVE_SPEED]
    rw [if_pos hq]
    ring
  have h24 : getRouteTime (400 : α) = 24 := by
    rw [hmain 400 (by norm_num)]
    have e : (400 : α) / 50 / 8 = 1 := by norm_num
    rw [e, Int.floor_one]
    norm_num
  exact ⟨hmain d h, rfl, h24, by rw [h24]; norm_num, by rw [h24]; norm_num⟩

/-- Witness for C3 at the concrete distance 400 over the rationals. -/
theorem C3_routeTime_formula_witness :
    getRouteTime (400 : ℚ) =
      24 * (⌊(400 : ℚ) / 50 / 8⌋ : ℚ) +
        ((400 : ℚ) / 50 - 8 * (⌊(400 : ℚ) / 50 / 8⌋ : ℚ)) ∧
    (DRIVE_SPEED : ℚ) = 50 ∧
    getRouteTime (400 : ℚ) = 24 ∧
    getRouteTime (400 : ℚ) ≠ 0 ∧ getRouteTime (400 : ℚ) ≠ 32 :=
  C3_routeTime_formula (400 : ℚ) (by decide)

/-- C4: with an empty stop list every individual the solver can ever build is
the all-zero chromosome (length 10, by the radash `range` quirk), and solve's
output on it has zero routes and zero totalDistance as claimed — but
`totalTime` is `null` (radash `max` of the empty route list, passed through a
non-null assertion), not `0`, contradicting both the claim and the declared
`totalTime: number` type. -/
theorem C4_empty_stops_totalTime_null :
    initChromosome (mkSolver ⟨0, 0⟩ []) = List.replicate 10 0 ∧
    (solveOutput (mkSolver ⟨0, 0⟩ []) (fun _ => "") (List.replicate 10 0)).routes
      = [] ∧
    (solveOutput (mkSolver ⟨0, 0⟩ []) (fun _ => "")
      (List.replicate 10 0)).totalDistance = 0 ∧
    (solveOutput (mkSolver ⟨0, 0⟩ []) (fun _ => "")
      (List.replicate 10 0)).totalTime = none ∧
    (solveOutput (mkSolver ⟨0, 0⟩ []) (fun _ => "")
      (List.replicate 10 0)).totalTime ≠ some 0 := by
  have hdec : decode (mkSolver ⟨0, 0⟩ []).individualNum (List.replicate 10 0)
      = [] := by decide
  have hR : (solveOutput (mkSolver ⟨0, 0⟩ []) (fun _ => "")
      (List.replicate 10 0)).routes = [] := by
    show ((getFitness (mkSolver ⟨0, 0⟩ []) (List.replicate 10 0)).routes.map
      (buildRoute (mkSolver ⟨0, 0⟩ []) (fun _ => ""))) = []
    rw [getFitness_routes, hdec]
    rfl
  have hD : (solveOutput (mkSolver ⟨0, 0⟩ []) (fun _ => "")
      (List.replicate 10 0)).totalDistance = 0 := by
    show (getFitness (mkSolver ⟨0, 0⟩ []) (List.replicate 10 0)).totalDistance = 0
    rw [getFitness_totalDistance, hdec]
    rfl
  have hT : (solveOutput (mkSolver ⟨0, 0⟩ []) (fun _ => "")
      (List.replicate 10 0)).totalTime = none := by
    show (getFitness (mkSolver ⟨0, 0⟩ []) (List.replicate 10 0)).totalTime = none
    rw [getFitness_totalTime, hdec]
    rfl
  refine ⟨by decide, hR, hD, hT, ?_⟩
  rw [hT]
  simp

/-- C5: elitism — after one `reproduce` step the best fitness value in the
new population is at least the best in the old one: selection keeps the top
`selectedNum` of the fitness-descending ranking, so the ranking's head, which
attains the old best fitness, survives unchanged. -/
theorem C5_elitism (s : VRPSolver α) (P P' : List (List ℕ)) (b b' : α)
    (hstep : StepRel s P P') (hsel : 0 < s.selectedNum)
    (hb : bestFitness s P = some b) (hb' : bestFitness s P' = some b') :
    b ≤ b' := by
  obtain ⟨Q, M, hrank, hMlen, hMsrc, hP'⟩ := hstep
  cases Q with
  | nil =>
      rw [hrank.1.eq_nil] at hb
      simp [bestFitness, jsMax] at hb
  | cons q qt =>
      have hq_max : ∀ x ∈ P,
          (getFitness s x).fitness ≤ (getFitness s q).fitness :=
        ranked_head_max hrank rfl
      obtain ⟨p, hp, hpb⟩ := List.mem_map.mp (jsMax_mem hb)
      have hb_le : b ≤ (getFitness s q).fitness := hpb ▸ hq_max p hp
      have hqP' : q ∈ P' := by
        subst hP'
        apply List.mem_append_left
        obtain ⟨k, hk⟩ := Nat.exists_eq_succ_of_ne_zero (Nat.pos_iff_ne_zero.mp hsel)
        rw [hk, List.take_succ_cons]
        exact List.mem_cons_self _ _
      exact le_trans hb_le (le_jsMax hb' _ (List.mem_map_of_mem _ hqP'))

/-- Witness for C5: a step from the duplicate population
`[[1,0],[1,0]]` to itself; the best fitness is preserved. -/
theorem C5_elitism_witness :
    (getFitness qSolver [1, 0]).fitness ≤ (getFitness qSolver [1, 0]).fitness :=
  C5_elitism qSolver [[1, 0], [1, 0]] [[1, 0], [1, 0]]
    ((getFitness qSolver [1, 0]).fitness) ((getFitness qSolver [1, 0]).fitness)
    qStep (by decide) qBest qBest

/-- C6: every route record in the solve output carries the decoded route with
depot index 0 prepended and appended, its coordinate path resolved through
the coordinate table (hence beginning and ending at the depot coordinate
`coords[0]`), `driveTime = distance / 50` without rest-day inflation, `time =
getRouteTime distance`, and the map preview URL built by joining the
`latitude,longitude` pairs with `/` onto the fixed base URL; the output route
list is exactly the decoded routes mapped through this builder. -/
theorem C6_route_assembly (s : VRPSolver α) (numStr : α → String)
    (route : List ℕ) (best : List ℕ) :
    (buildRoute s numStr route).indices = 0 :: route ++ [0] ∧
    (buildRoute s numStr route).paths =
      ((0 : ℕ) :: route ++ [0]).map (coordAt s) ∧
    (buildRoute s numStr route).paths.head? = some (coordAt s 0) ∧
    (buildRoute s numStr route).paths.getLast? = some (coordAt s 0) ∧
    (buildRoute s numStr route).distance = getRouteDistance s route ∧
    (buildRoute s numStr route).driveTime =
      (buildRoute s numStr route).distance / 50 ∧
    (buildRoute s numStr route).time =
      getRouteTime (buildRoute s numStr route).distance ∧
    (buildRoute s numStr route).googleMapUrl =
      "https://www.google.com/maps/dir/" ++ String.intercalate "/"
        ((buildRoute s numStr route).paths.map fun p =>
          numStr p.latitude ++ "," ++ numStr p.longitude) ∧
    (solveOutput s numStr best).routes =
      (getFitness s best).routes.map (buildRoute s numStr) := by
  refine ⟨rfl, rfl, rfl, ?_, rfl, rfl, rfl, rfl, rfl⟩
  show (((0 : ℕ) :: route ++ [0]).map (coordAt s)).getLast? = some (coordAt s 0)
  rw [show ((0 : ℕ) :: route ++ [0]) = ((0 : ℕ) :: route) ++ [0] from rfl,
    List.map_append]
  simp only [List.map_cons, List.map_nil]
  rw [List.getLast?_concat]

/-- C7: the aggregate `totalDistance` and `totalTime` of the solve output are
exactly the values `getFitness` computes on the best individual (the head of
the fitness-ranked final population), with the same sum and max formulas, so
the optimization objective and the reported result agree. -/
theorem C7_output_totals (s : VRPSolver α) (numStr : α → String)
    (P Q : List (List ℕ)) (best : List ℕ)
    (hrank : RankedDesc s P Q) (hhead : Q.head? = some best) :
    (solveOutput s numStr best).totalDistance =
      (getFitness s best).totalDistance ∧
    (solveOutput s numStr best).totalTime = (getFitness s best).totalTime ∧
    (getFitness s best).totalDistance =
      ((getFitness s best).routes.map (getRouteDistance s)).sum ∧
    (getFitness s best).totalTime =
      jsMax ((getFitness s best).routes.map
        fun r => getRouteTime (getRouteDistance s r)) ∧
    ∀ x ∈ P, (getFitness s x).fitness ≤ (getFitness s best).fitness := by
  refine ⟨rfl, rfl, ?_, ?_, ranked_head_max hrank hhead⟩
  · rw [getFitness_totalDistance, getFitness_routes]
  · rw [getFitness_totalTime, getFitness_routes]

/-- Witness for C7: the singleton ranked population `[[1,0]]`. -/
theorem C7_output_totals_witness :
    (solveOutput qSolver (fun _ => "") [1, 0]).totalDistance =
      (getFitness qSolver [1, 0]).totalDistance ∧
    (solveOutput qSolver (fun _ => "") [1, 0]).totalTime =
      (getFitness qSolver [1, 0]).totalTime ∧
    (getFitness qSolver [1, 0]).totalDistance =
      ((getFitness qSolver [1, 0]).routes.map (getRouteDistance qSolver)).sum ∧
    (getFitness qSolver [1, 0]).totalTime =
      jsMax ((getFitness qSolver [1, 0]).routes.map
        fun r => getRouteTime (getRouteDistance qSolver r)) ∧
    ∀ x ∈ [[1, 0]], (getFitness qSolver x).fitness ≤
      (getFitness qSolver [1, 0]).fitness :=
  C7_output_totals qSolver (fun _ => "") [[1, 0]] [[1, 0]] [1, 0] qRankSingle rfl

/-- C8: the population holds exactly `individualNum` individuals after
initialization and after every number of generation steps (each step keeps
`selectedNum` survivors and appends `individualNum - selectedNum` mutants). -/
theorem C8_population_size (s : VRPSolver α) (P₀ P : List (List ℕ)) (n : ℕ)
    (hinit : InitPop s P₀) (hiter : StepIter s n P₀ P)
    (hsel : s.selectedNum ≤ s.individualNum) :
    P₀.length = s.individualNum ∧ P.length = s.individualNum :=
  ⟨hinit.1, stepIter_length hinit.1 hiter hsel⟩

/-- Witness for C8: one step from the duplicate initial population. -/
theorem C8_population_size_witness :
    ([[1, 0], [1, 0]] : List (List ℕ)).length = qSolver.individualNum ∧
    ([[1, 0], [1, 0]] : List (List ℕ)).length = qSolver.individualNum :=
  C8_population_size qSolver [[1, 0], [1, 0]] [[1, 0], [1, 0]] 1 qInit
    ⟨[[1, 0], [1, 0]], rfl, qStep⟩ (by decide)

/-- C10: every reachable population has exactly `individualNum` members,
hence is non-empty, so radash `draw` in `mutation` always returns an
individual (the non-null assertion never fails), and each step's mutant list
has exactly `individualNum - selectedNum` members. -/
theorem C10_draw_succeeds (s : VRPSolver α) (P₀ P : List (List ℕ)) (n k : ℕ)
    (hinit : InitPop s P₀) (hiter : StepIter s n P₀ P)
    (hsel : s.selectedNum ≤ s.individualNum) (hpos : 0 < s.individualNum) :
    P.length = s.individualNum ∧ (jsDraw P k).isSome = true ∧
    ∀ P₁, StepRel s P P₁ →
      ∃ Q M, RankedDesc s P Q ∧
        M.length = s.individualNum - s.selectedNum ∧
        P₁ = Q.take s.selectedNum ++ M := by
  have hlen : P.length = s.individualNum := stepIter_length hinit.1 hiter hsel
  refine ⟨hlen, ?_, ?_⟩
  · have hP : 0 < P.length := by rw [hlen]; exact hpos
    have hk : k % P.length < P.length := Nat.mod_lt k hP
    show (P.get? (k % P.length)).isSome = true
    rw [List.get?_eq_get hk]
    rfl
  · intro P₁ h
    obtain ⟨Q, M, h1, h2, _, h4⟩ := h
    exact ⟨Q, M, h1, h2, h4⟩

/-- Witness for C10: drawing from the population reached after one step. -/
theorem C10_draw_succeeds_witness :
    ([[1, 0], [1, 0]] : List (List ℕ)).length = qSolver.individualNum ∧
    (jsDraw ([[1, 0], [1, 0]] : List (List ℕ)) 0).isSome = true :=
  ⟨(C10_draw_succeeds qSolver [[1, 0], [1, 0]] [[1, 0], [1, 0]] 1 0 qInit
      ⟨[[1, 0], [1, 0]], rfl, qStep⟩ (by decide) (by decide)).1,
    (C10_draw_succeeds qSolver [[1, 0], [1, 0]] [[1, 0], [1, 0]] 1 0 qInit
      ⟨[[1, 0], [1, 0]], rfl, qStep⟩ (by decide) (by decide)).2.1⟩

/-- C9: the haversine distance is symmetric and vanishes on coinciding
coordinates; consequently, for the solver the constructor builds (with
`getDistanceBetweenCoords = haversineDistance`) every route and its mirror
image have identical `getRouteDistance`. -/
theorem C9_distance_symmetry :
    (∀ a b : Coord ℝ, haversineDistance a b = haversineDistance b a) ∧
    (∀ a : Coord ℝ, haversineDistance a a = 0) ∧
    ∀ (w : Coord ℝ) (stops : List (Coord ℝ)) (route : List ℕ),
      getRouteDistance (mkSolver w stops) route.reverse =
        getRouteDistance (mkSolver w stops) route := by
  refine ⟨haversineDistance_comm, haversineDistance_self, ?_⟩
  intro w stops route
  exact getRouteDistance_reverse (mkSolver w stops)
    (fun a b => haversineDistance_comm a b) route

end VRP
